import Mathlib

/-!
Shallow embedding of the `cli_chatbot` repository (Python) and proofs about it.

Embedded components:
- `src/cli_chatbot/chat/history.py` (`ChatHistoryManager`)
- `src/cli_chatbot/chat/loop.py` (`ChatLoop`)
- `src/cli_chatbot/mcp/server_launcher.py` (`ServerLauncher`, `StreamLogger`)

Python strings are modelled as Lean `String` (length = number of characters,
matching Python `len` on code points); Python `int` is modelled as `Int`
(arbitrary precision, signed); Python lists as Lean `List`.
-/

/-- Python helper: `s[:k]` on a string, including Python's negative-index
slicing semantics (`s[:-n]` drops the last `n` characters, clamped at 0). -/
def pySliceTo (s : String) (k : Int) : String :=
  if 0 ≤ k then ⟨s.data.take k.toNat⟩
  else ⟨s.data.take ((s.length : Int) + k).toNat⟩

/-- Python helper: the default whitespace set of `str.strip()` restricted to
the ASCII range: space, tab, newline, carriage return, vertical tab, form feed. -/
def isPySpace (c : Char) : Bool :=
  c == ' ' || c == '\t' || c == '\n' || c == '\r' || c == '\x0b' || c == '\x0c'

/-- Python helper: `s.strip()` — drop leading and trailing whitespace. -/
def pyStrip (s : String) : String :=
  ⟨((s.data.dropWhile isPySpace).reverse.dropWhile isPySpace).reverse⟩

/-- A chat message: the Python dict `{"role": role, "content": content}`
built in `ChatHistoryManager.add_message` (history.py line 22). -/
structure Message where
  role : String
  content : String
deriving DecidableEq, Repr

/-- State of `ChatHistoryManager` (history.py lines 10-13): the configured
ceiling `max_chars`, the message list, and the running counter `_current_chars`. -/
structure ChatHistoryManager where
  max_chars : Int
  messages : List Message
  _current_chars : Int
deriving DecidableEq, Repr

/-- The constructor `ChatHistoryManager.__init__` (history.py lines 10-13):
empty message list, counter zero. -/
def ChatHistoryManager.init (max_chars : Int) : ChatHistoryManager :=
  { max_chars := max_chars, messages := [], _current_chars := 0 }

/-- Sum of the content lengths of a message list, as a Python `int`. -/
def sumChars (l : List Message) : Int :=
  (l.map fun m => (m.content.length : Int)).sum

/-- The eviction loop of `add_message` (history.py lines 30-32):
`while self._current_chars > self.max_chars and len(self.messages) > 1:`
pop the front message and subtract its content length. -/
def evictLoop (max_chars : Int) : List Message → Int → List Message × Int
  | [], cur => ([], cur)
  | [m], cur => ([m], cur)
  | m :: m2 :: rest, cur =>
    if max_chars < cur then evictLoop max_chars (m2 :: rest) (cur - (m.content.length : Int))
    else (m :: m2 :: rest, cur)

/-- The single-oversized-message step of `add_message` (history.py lines 34-37):
`if self._current_chars > self.max_chars and len(self.messages) == 1:` replace
the single message content by `content[:max_chars]` and set the counter to
`max_chars`. -/
def truncateSingle (max_chars : Int) (msgs : List Message) (cur : Int) : List Message × Int :=
  match msgs with
  | [m] =>
    if max_chars < cur then ([⟨m.role, pySliceTo m.content max_chars⟩], max_chars)
    else ([m], cur)
  | _ => (msgs, cur)

/-- `ChatHistoryManager.add_message` (history.py lines 15-37): append the new
message and add its length to the counter, run the eviction loop, then the
single-oversized-message truncation. -/
def add_message (h : ChatHistoryManager) (role content : String) : ChatHistoryManager :=
  let appended := h.messages ++ [⟨role, content⟩]
  let cur := h._current_chars + (content.length : Int)
  let final := truncateSingle h.max_chars (evictLoop h.max_chars appended cur).1
      (evictLoop h.max_chars appended cur).2
  { max_chars := h.max_chars, messages := final.1, _current_chars := final.2 }

/-- `ChatHistoryManager.get_context_string` (history.py lines 39-48):
`"\n".join(f"{msg['role']}: {msg['content']}" for msg in self.messages)`. -/
def get_context_string (h : ChatHistoryManager) : String :=
  String.intercalate "\n" (h.messages.map fun msg => msg.role ++ ": " ++ msg.content)

/-- `ChatHistoryManager.clear` (history.py lines 50-53). -/
def ChatHistoryManager.clear (h : ChatHistoryManager) : ChatHistoryManager :=
  { max_chars := h.max_chars, messages := [], _current_chars := 0 }

/-- Run a sequence of `add_message` calls, oldest first. -/
def runAdds (h : ChatHistoryManager) : List (String × String) → ChatHistoryManager
  | [] => h
  | (r, c) :: rest => runAdds (add_message h r c) rest

/-- One turn of `ChatLoop.process_message` (loop.py lines 38-60), with the LLM
collaborator `llm_client.send_message` passed in as a function. Returns the
final history and the returned reply; the `print` to the console is the only
effect not represented. -/
def process_message (send_message : String → String) (h : ChatHistoryManager)
    (user_message : String) : ChatHistoryManager × String :=
  let h1 := add_message h "user" user_message
  let context := get_context_string h1
  let response := send_message context
  (add_message h1 "assistant" response, response)

/-- How `ChatLoop.run` (loop.py lines 17-36) treats one line read from the
user: exit the loop, ignore the line, or pass a message to `process_message`. -/
inductive LoopAction
  | exit
  | ignore
  | process (msg : String)
deriving DecidableEq, Repr

/-- Python helper: `str.lower()` on one character, ASCII range. -/
def pyLowerChar (c : Char) : Char :=
  if 'A' ≤ c ∧ c ≤ 'Z' then Char.ofNat (c.toNat + 32) else c

/-- Python helper: `s.lower()` (ASCII range). -/
def pyLower (s : String) : String :=
  ⟨s.data.map pyLowerChar⟩

/-- The per-line interpretation in `ChatLoop.run` (loop.py lines 23-32):
`user_input = input("You: ").strip()`; exit when `user_input.lower()` is
`'exit'` or `'quit'`; skip empty input; otherwise process it. -/
def interpret_input (raw : String) : LoopAction :=
  let user_input := pyStrip raw
  if pyLower user_input = "exit" ∨ pyLower user_input = "quit" then .exit
  else if user_input = "" then .ignore
  else .process user_input

/-- One `readline()` outcome on the stream attached to a `StreamLogger`:
a returned line (the empty string means end-of-stream), a raised
`ValueError` with its message, or a raised `AttributeError`/`RuntimeError`. -/
inductive ReadEvent
  | line (s : String)
  | valueError (msg : String)
  | attrOrRuntimeError
deriving DecidableEq, Repr

/-- Python helper: does `hay` start with `needle` (on character lists). -/
def startsWithList : List Char → List Char → Bool
  | [], _ => true
  | _ :: _, [] => false
  | n :: ns, h :: hs => n == h && startsWithList ns hs

/-- Python helper: substring containment on character lists. -/
def containsSub (needle : List Char) : List Char → Bool
  | [] => needle.isEmpty
  | h :: hs => startsWithList needle (h :: hs) || containsSub needle hs

/-- Python helper: the `needle in hay` substring test on strings. -/
def pyIn (needle hay : String) : Bool :=
  containsSub needle.data hay.data

/-- The read loop body of `StreamLogger._log_stream` (server_launcher.py lines
92-106), run over a list of `readline()` outcomes. `_stop_event.is_set()` is
always false in the shipped program: the class's effective `stop` (the second
definition, lines 132-136, which shadows the first) never sets the event, so
the loop guard reduces to `True`. Returns the lines forwarded to
`logger_method` (each passed through `line.strip()`, skipped when
`test_mode`), and the exception message propagated out of the loop, if any
(`none` means the loop terminated by `break` or end of events). -/
def logStreamLoop (test_mode : Bool) : List ReadEvent → List String × Option String
  | [] => ([], none)
  | .line s :: rest =>
    if s = "" then ([], none)
    else
      let r := logStreamLoop test_mode rest
      (if test_mode then r.1 else pyStrip s :: r.1, r.2)
  | .valueError msg :: _ =>
    if pyIn "I/O operation on closed file" msg then ([], none)
    else ([], some msg)
  | .attrOrRuntimeError :: _ => ([], none)

/-- Result of one whole run of `StreamLogger._log_stream` (server_launcher.py
lines 90-108): the forwarded lines, the number of `stream.close()` invocations
made by this run, and the propagated exception message, if any. -/
structure LogStreamResult where
  forwarded : List String
  close_calls : Nat
  propagated : Option String
deriving DecidableEq, Repr

/-- `StreamLogger._log_stream` (server_launcher.py lines 90-108): run the read
loop; the `finally` block invokes `_close_stream` exactly once, whether the
loop ended by `break`, by exhaustion, or by a propagating exception. -/
def _log_stream (test_mode : Bool) (reads : List ReadEvent) : LogStreamResult :=
  { forwarded := (logStreamLoop test_mode reads).1,
    close_calls := 1,
    propagated := (logStreamLoop test_mode reads).2 }

/-- Observable control state of a `StreamLogger` (server_launcher.py lines
83-88): the `_stop_event` flag, whether the worker thread is currently alive,
and how many times `stream.close()` has been invoked on its stream. -/
structure StreamLogger where
  stop_event : Bool
  thread_alive : Bool
  stream_close_calls : Nat
deriving DecidableEq, Repr

/-- The effective `StreamLogger.stop` (server_launcher.py lines 132-136): the
class body defines `stop` twice, so this second definition shadows the first.
If the worker thread is alive it calls `_close_stream()` (one more
`stream.close()` invocation, errors swallowed) and then joins with a 0.1s
timeout; the join waits but changes no state (the thread may or may not have
exited when it returns). It never touches `_stop_event`. If the worker is not
alive it does nothing. -/
def StreamLogger.stop (s : StreamLogger) : StreamLogger :=
  if s.thread_alive then { s with stream_close_calls := s.stream_close_calls + 1 }
  else s

/-- The shadowed first definition of `stop` (server_launcher.py lines
125-130), kept for comparison: it sets `_stop_event`, joins if alive, and
always calls `_close_stream()`. This code is dead in the shipped program. -/
def StreamLogger.stop_shadowed (s : StreamLogger) : StreamLogger :=
  { s with stop_event := true, stream_close_calls := s.stream_close_calls + 1 }

/-- Total number of `stream.close()` invocations over a forwarding task's
whole lifetime: the one made by the read loop's `finally` cleanup, plus the
one made by `stop()` when it found the worker thread alive
(`stop_saw_thread_alive`). -/
def lifetimeCloseCalls (stop_saw_thread_alive : Bool) (test_mode : Bool)
    (reads : List ReadEvent) : Nat :=
  (_log_stream test_mode reads).close_calls + (if stop_saw_thread_alive then 1 else 0)

/-- Observable effects of `ServerLauncher.launch_server` (server_launcher.py
lines 161-203): an error logged via `self.logger.error`, or a process spawned
via `subprocess.Popen` with the given full command. -/
inductive LaunchEffect
  | logError (msg : String)
  | spawn (full_command : List String)
deriving DecidableEq, Repr

/-- A server configuration dictionary: each expected key is present or
absent. Only `command` and `args` are read by `launch_server`. -/
structure ServerConfig where
  name? : Option String
  type? : Option String
  command? : Option (List String)
  args? : Option (List String)
deriving DecidableEq, Repr

/-- `ServerLauncher._resolve_workspace_path` (server_launcher.py lines 68-78):
replace the `workspaceFolder` placeholder token in every part.
(`"\x7b"`/`"\x7d"` are the brace characters of the literal token.) -/
def _resolve_workspace_path (workspace_path : String) (parts : List String) : List String :=
  parts.map fun part => part.replace "$\x7bworkspaceFolder\x7d" workspace_path

/-- Outcome of a `launch_server` call: `keyError k` models the `KeyError(k)`
re-raised to the caller; `ok cmd` models returning the process handle spawned
with command line `cmd`. -/
inductive LaunchOutcome
  | keyError (key : String)
  | ok (full_command : List String)
deriving DecidableEq, Repr

/-- `ServerLauncher.launch_server` (server_launcher.py lines 161-203): look up
`server_config['command']` then `server_config['args']` (a missing key raises
`KeyError`, which the `except` clause logs and re-raises); on success resolve
the workspace placeholder in both, concatenate, and spawn. The first component
lists the effects in order; the second is the outcome. -/
def launch_server (workspace_path : String) (cfg : ServerConfig) :
    List LaunchEffect × LaunchOutcome :=
  match cfg.command? with
  | none => ([.logError "Missing required config key: 'command'"], .keyError "command")
  | some command_raw =>
    match cfg.args? with
    | none => ([.logError "Missing required config key: 'args'"], .keyError "args")
    | some args_raw =>
      let full_command := _resolve_workspace_path workspace_path command_raw ++
        _resolve_workspace_path workspace_path args_raw
      ([.spawn full_command], .ok full_command)

@[simp] theorem sumChars_nil : sumChars [] = 0 := rfl

@[simp] theorem sumChars_cons (m : Message) (l : List Message) :
    sumChars (m :: l) = (m.content.length : Int) + sumChars l := by
  simp [sumChars]

@[simp] theorem sumChars_append (l₁ l₂ : List Message) :
    sumChars (l₁ ++ l₂) = sumChars l₁ + sumChars l₂ := by
  simp [sumChars]

theorem sumChars_nonneg (l : List Message) : 0 ≤ sumChars l := by
  induction l with
  | nil => simp
  | cons m t ih => simp; omega

theorem evictLoop_sum (max_chars : Int) :
    ∀ (l : List Message) (cur : Int), cur = sumChars l →
      (evictLoop max_chars l cur).2 = sumChars (evictLoop max_chars l cur).1
  | [], cur, h => by simpa [evictLoop] using h
  | [m], cur, h => by simpa [evictLoop] using h
  | m :: m2 :: rest, cur, h => by
    by_cases hmc : max_chars < cur
    · have hrec := evictLoop_sum max_chars (m2 :: rest)
        (cur - (m.content.length : Int)) (by simp at h ⊢; omega)
      simpa [evictLoop, hmc] using hrec
    · simpa [evictLoop, hmc] using h

theorem evictLoop_post (max_chars : Int) :
    ∀ (l : List Message) (cur : Int),
      (evictLoop max_chars l cur).2 ≤ max_chars ∨ (evictLoop max_chars l cur).1.length ≤ 1
  | [], _ => by simp [evictLoop]
  | [m], _ => by simp [evictLoop]
  | m :: m2 :: rest, cur => by
    by_cases hmc : max_chars < cur
    · simpa [evictLoop, hmc] using
        evictLoop_post max_chars (m2 :: rest) (cur - (m.content.length : Int))
    · simp [evictLoop, hmc]
      omega

theorem evictLoop_ne_nil (max_chars : Int) :
    ∀ (l : List Message) (cur : Int), l ≠ [] → (evictLoop max_chars l cur).1 ≠ []
  | [], _, h => absurd rfl h
  | [m], cur, _ => by simp [evictLoop]
  | m :: m2 :: rest, cur, _ => by
    by_cases hmc : max_chars < cur
    · simpa [evictLoop, hmc] using
        evictLoop_ne_nil max_chars (m2 :: rest) (cur - (m.content.length : Int)) (by simp)
    · simp [evictLoop, hmc]

theorem evictLoop_oversized (max_chars : Int) (m : Message)
    (hm : max_chars < (m.content.length : Int)) :
    ∀ (l : List Message) (cur : Int), cur = sumChars (l ++ [m]) →
      evictLoop max_chars (l ++ [m]) cur = ([m], (m.content.length : Int))
  | [], cur, h => by
    subst h
    simp [evictLoop]
  | a :: l, cur, h => by
    rcases hl : l ++ [m] with _ | ⟨m2, rest⟩
    · exact absurd hl (by simp)
    · have hnn : 0 ≤ sumChars l := sumChars_nonneg l
      have hmc : max_chars < cur := by simp at h; omega
      have hrec := evictLoop_oversized max_chars m hm l
        (cur - (a.content.length : Int)) (by simp at h ⊢; omega)
      rw [hl] at hrec
      show evictLoop max_chars (a :: (l ++ [m])) cur = ([m], (m.content.length : Int))
      rw [hl]
      simpa [evictLoop, hmc] using hrec

theorem truncateSingle_ne_nil (max_chars : Int) (msgs : List Message) (cur : Int)
    (h : msgs ≠ []) : (truncateSingle max_chars msgs cur).1 ≠ [] := by
  rcases msgs with _ | ⟨m, tail⟩
  · exact absurd rfl h
  · rcases tail with _ | ⟨m2, rest⟩
    · by_cases hmc : max_chars < cur <;> simp [truncateSingle, hmc]
    · simp [truncateSingle]

theorem add_message_ne_nil (h : ChatHistoryManager) (role content : String) :
    (add_message h role content).messages ≠ [] := by
  simp only [add_message]
  exact truncateSingle_ne_nil _ _ _
    (evictLoop_ne_nil _ _ _ (by simp))

theorem pySliceTo_of_nonneg (s : String) (k : Int) (hk : 0 ≤ k) :
    pySliceTo s k = ⟨s.data.take k.toNat⟩ := by
  simp [pySliceTo, hk]

theorem length_pySliceTo (s : String) (k : Int) (hk : 0 ≤ k)
    (hlt : k < (s.length : Int)) : ((pySliceTo s k).length : Int) = k := by
  rw [pySliceTo_of_nonneg s k hk]
  show ((s.data.take k.toNat).length : Int) = k
  rw [List.length_take]
  have hlen : s.length = s.data.length := rfl
  omega

theorem add_message_good (h : ChatHistoryManager) (role content : String)
    (hmax : 0 ≤ h.max_chars)
    (hinv : h._current_chars = sumChars h.messages) :
    (add_message h role content)._current_chars =
      sumChars (add_message h role content).messages ∧
    (add_message h role content)._current_chars ≤ h.max_chars := by
  have hcur : h._current_chars + (content.length : Int) =
      sumChars (h.messages ++ [⟨role, content⟩]) := by
    simp [hinv]
  have hsum := evictLoop_sum h.max_chars (h.messages ++ [⟨role, content⟩])
    (h._current_chars + (content.length : Int)) hcur
  have hpost := evictLoop_post h.max_chars (h.messages ++ [⟨role, content⟩])
    (h._current_chars + (content.length : Int))
  have hne := evictLoop_ne_nil h.max_chars (h.messages ++ [⟨role, content⟩])
    (h._current_chars + (content.length : Int)) (by simp)
  simp only [add_message]
  rcases hE : (evictLoop h.max_chars (h.messages ++ [⟨role, content⟩])
      (h._current_chars + (content.length : Int))).1 with _ | ⟨m, tail⟩
  · exact absurd hE hne
  · rw [hE] at hsum hpost
    rcases tail with _ | ⟨m2, rest⟩
    · by_cases hover : h.max_chars <
        (evictLoop h.max_chars (h.messages ++ [⟨role, content⟩])
          (h._current_chars + (content.length : Int))).2
      · have hlen : h.max_chars < (m.content.length : Int) := by
          simp at hsum; omega
        constructor
        · show (truncateSingle _ _ _).2 = sumChars (truncateSingle _ _ _).1
          rw [hE]
          simp [truncateSingle, hover]
          rw [length_pySliceTo m.content h.max_chars hmax hlen]
        · show (truncateSingle _ _ _).2 ≤ h.max_chars
          rw [hE]
          simp [truncateSingle, hover]
      · constructor
        · show (truncateSingle _ _ _).2 = sumChars (truncateSingle _ _ _).1
          rw [hE]
          simp [truncateSingle, hover]
          simpa using hsum
        · show (truncateSingle _ _ _).2 ≤ h.max_chars
          rw [hE]
          simp [truncateSingle, hover]
          omega
    · have hle : (evictLoop h.max_chars (h.messages ++ [⟨role, content⟩])
          (h._current_chars + (content.length : Int))).2 ≤ h.max_chars := by
        rcases hpost with hp | hp
        · exact hp
        · simp at hp
      constructor
      · show (truncateSingle _ _ _).2 = sumChars (truncateSingle _ _ _).1
        rw [hE]
        simpa [truncateSingle] using hsum
      · show (truncateSingle _ _ _).2 ≤ h.max_chars
        rw [hE]
        simpa [truncateSingle] using hle

theorem add_message_max_chars (h : ChatHistoryManager) (role content : String) :
    (add_message h role content).max_chars = h.max_chars := rfl

theorem runAdds_good :
    ∀ (ops : List (String × String)) (h : ChatHistoryManager),
      0 ≤ h.max_chars →
      h._current_chars = sumChars h.messages →
      h._current_chars ≤ h.max_chars →
      (runAdds h ops).max_chars = h.max_chars ∧
      (runAdds h ops)._current_chars = sumChars (runAdds h ops).messages ∧
      (runAdds h ops)._current_chars ≤ h.max_chars
  | [], h, _, hinv, hle => ⟨rfl, hinv, hle⟩
  | (r, c) :: rest, h, hmax, hinv, _ => by
    have hstep := add_message_good h r c hmax hinv
    have hrec := runAdds_good rest (add_message h r c) hmax hstep.1 hstep.2
    exact ⟨hrec.1, hrec.2.1, hrec.2.2⟩

theorem intercalate_go_append (s : String) :
    ∀ (as : List String) (acc₁ acc₂ : String),
      String.intercalate.go (acc₁ ++ acc₂) s as = acc₁ ++ String.intercalate.go acc₂ s as
  | [], _, _ => rfl
  | a :: as, acc₁, acc₂ => by
    show String.intercalate.go (acc₁ ++ acc₂ ++ s ++ a) s as =
      acc₁ ++ String.intercalate.go (acc₂ ++ s ++ a) s as
    rw [String.append_assoc, String.append_assoc, ← String.append_assoc acc₂ s a]
    exact intercalate_go_append s as acc₁ (acc₂ ++ s ++ a)

theorem intercalate_cons_cons (s x y : String) (t : List String) :
    String.intercalate s (x :: y :: t) = x ++ s ++ String.intercalate s (y :: t) := by
  show String.intercalate.go (x ++ s ++ y) s t = x ++ s ++ String.intercalate.go y s t
  exact intercalate_go_append s t (x ++ s) y

theorem getLast?_of_suffix_ne_nil {α : Type} (t B : List α) (hB : B ≠ []) :
    (t ++ B).getLast? = B.getLast? := by
  obtain ⟨y, hy⟩ := Option.isSome_iff_exists.mp (List.getLast?_isSome.mpr hB)
  rw [List.getLast?_append, hy]
  rfl

theorem pyStrip_no_edge_space (raw : String) :
    (pyStrip raw).data.head?.all (fun c => !isPySpace c) = true ∧
    (pyStrip raw).data.getLast?.all (fun c => !isPySpace c) = true := by
  have hdata : (pyStrip raw).data =
      ((raw.data.dropWhile isPySpace).reverse.dropWhile isPySpace).reverse := rfl
  constructor
  · rw [hdata, List.head?_reverse]
    rcases hB : (raw.data.dropWhile isPySpace).reverse.dropWhile isPySpace with _ | ⟨x, xs⟩
    · simp
    · obtain ⟨t, ht⟩ :=
        List.dropWhile_suffix (l := (raw.data.dropWhile isPySpace).reverse) isPySpace
      rw [hB] at ht
      have h1 : (x :: xs).getLast? = (raw.data.dropWhile isPySpace).reverse.getLast? := by
        rw [← ht, getLast?_of_suffix_ne_nil t (x :: xs) (by simp)]
      have h2 : (raw.data.dropWhile isPySpace).reverse.getLast? =
          (raw.data.dropWhile isPySpace).head? := by
        rw [List.getLast?_eq_head?_reverse, List.reverse_reverse]
      rw [h1, h2]
      have h3 := List.head?_dropWhile_not isPySpace raw.data
      rcases hh : (raw.data.dropWhile isPySpace).head? with _ | ⟨c⟩
      · simp
      · rw [hh] at h3
        simp only [Option.all_some]
        simp [h3]
  · rw [hdata, List.getLast?_eq_head?_reverse, List.reverse_reverse]
    have h3 := List.head?_dropWhile_not isPySpace (raw.data.dropWhile isPySpace).reverse
    rcases hh : ((raw.data.dropWhile isPySpace).reverse.dropWhile isPySpace).head? with _ | ⟨c⟩
    · simp
    · rw [hh] at h3
      simp only [Option.all_some]
      simp [h3]

/-- C1, counterexample to the claim as stated: the claim quantifies over any
`max_chars`, but on `ChatHistoryManager(max_chars=-1)` a single
`add_message("user", "ab")` leaves `_current_chars = -1` while the one stored
message (content `"a"`, produced by the Python negative slice `"ab"[:-1]`) has
total content length `1`, so the counter does not equal the sum of content
lengths. -/
theorem C1_counterexample :
    (runAdds (ChatHistoryManager.init (-1)) [("user", "ab")])._current_chars <
    sumChars (runAdds (ChatHistoryManager.init (-1)) [("user", "ab")]).messages := by
  decide

/-- C1 (amended to non-negative `max_chars`): for every sequence of
`add_message` calls on a `ChatHistoryManager` with `0 ≤ max_chars`, after each
call `_current_chars` equals the exact sum of the content lengths of all
messages currently held, and `_current_chars ≤ max_chars` unless exactly one
message remains whose content length equals `max_chars`. -/
theorem C1_history_invariant (max_chars : Int) (hmax : 0 ≤ max_chars)
    (ops : List (String × String)) :
    (runAdds (ChatHistoryManager.init max_chars) ops)._current_chars =
      sumChars (runAdds (ChatHistoryManager.init max_chars) ops).messages ∧
    ((runAdds (ChatHistoryManager.init max_chars) ops)._current_chars ≤ max_chars ∨
      ((runAdds (ChatHistoryManager.init max_chars) ops).messages.length = 1 ∧
        ∀ m ∈ (runAdds (ChatHistoryManager.init max_chars) ops).messages,
          (m.content.length : Int) = max_chars)) := by
  have hg := runAdds_good ops (ChatHistoryManager.init max_chars) hmax rfl hmax
  exact ⟨hg.2.1, Or.inl hg.2.2⟩

/-- C1, witness: the amended invariant at `max_chars = 20` after adding a
10-character and then a 15-character message (the first gets evicted). -/
theorem C1_witness :
    0 ≤ (20 : Int) ∧
    ((runAdds (ChatHistoryManager.init 20)
        [("user", "aaaaaaaaaa"), ("assistant", "bbbbbbbbbbbbbbb")])._current_chars =
      sumChars (runAdds (ChatHistoryManager.init 20)
        [("user", "aaaaaaaaaa"), ("assistant", "bbbbbbbbbbbbbbb")]).messages ∧
    ((runAdds (ChatHistoryManager.init 20)
        [("user", "aaaaaaaaaa"), ("assistant", "bbbbbbbbbbbbbbb")])._current_chars ≤ 20 ∨
      ((runAdds (ChatHistoryManager.init 20)
          [("user", "aaaaaaaaaa"), ("assistant", "bbbbbbbbbbbbbbb")]).messages.length = 1 ∧
        ∀ m ∈ (runAdds (ChatHistoryManager.init 20)
          [("user", "aaaaaaaaaa"), ("assistant", "bbbbbbbbbbbbbbb")]).messages,
          (m.content.length : Int) = 20))) :=
  ⟨by decide, C1_history_invariant 20 (by decide)
    [("user", "aaaaaaaaaa"), ("assistant", "bbbbbbbbbbbbbbb")]⟩

/-- C2: `add_message` evicts strictly FIFO and never empties the buffer: with
`max_chars = 20` and messages A (10 chars) then B (10 chars), adding C (1
char) removes exactly A and leaves `[B, C]`; and after any `add_message` call
on any state the buffer is non-empty. -/
theorem C2_fifo_eviction :
    (runAdds (ChatHistoryManager.init 20)
      [("user", "aaaaaaaaaa"), ("assistant", "bbbbbbbbbb"), ("user", "c")]).messages =
      [⟨"assistant", "bbbbbbbbbb"⟩, ⟨"user", "c"⟩] ∧
    ∀ (h : ChatHistoryManager) (role content : String),
      0 < (add_message h role content).messages.length :=
  ⟨by decide, fun h role content =>
    List.length_pos.mpr (add_message_ne_nil h role content)⟩

/-- C3: an `add_message` call whose content length alone exceeds a
non-negative `max_chars` (on a state whose counter matches its contents, as
every reachable state does) leaves exactly one message, namely the new one
with its content cut to the first `max_chars` characters, and sets
`_current_chars = max_chars`; the function is total, so no error is raised. -/
theorem C3_oversized_truncation (h : ChatHistoryManager) (role content : String)
    (hmax : 0 ≤ h.max_chars)
    (hinv : h._current_chars = sumChars h.messages)
    (hbig : h.max_chars < (content.length : Int)) :
    (add_message h role content).messages =
      [⟨role, ⟨content.data.take h.max_chars.toNat⟩⟩] ∧
    (add_message h role content)._current_chars = h.max_chars := by
  have hcur : h._current_chars + (content.length : Int) =
      sumChars (h.messages ++ [⟨role, content⟩]) := by
    simp [hinv]
  have hev := evictLoop_oversized h.max_chars ⟨role, content⟩ hbig h.messages
    (h._current_chars + (content.length : Int)) hcur
  simp only [add_message, hev]
  constructor
  · show (truncateSingle _ _ _).1 = _
    simp [truncateSingle, hbig]
    rw [pySliceTo_of_nonneg content h.max_chars hmax]
  · show (truncateSingle _ _ _).2 = _
    simp [truncateSingle, hbig]

/-- C3, witness: with `max_chars = 30`, adding a 34-character message to an
empty buffer yields exactly one message holding the first 30 characters, and
the counter equals 30. -/
theorem C3_witness :
    (add_message (ChatHistoryManager.init 30) "user"
        "0123456789012345678901234567890123").messages =
      [⟨"user", "012345678901234567890123456789"⟩] ∧
    (add_message (ChatHistoryManager.init 30) "user"
        "0123456789012345678901234567890123")._current_chars = 30 := by
  have h := C3_oversized_truncation (ChatHistoryManager.init 30) "user"
    "0123456789012345678901234567890123" (by decide) (by decide) (by decide)
  exact ⟨h.1.trans (by decide), h.2⟩

/-- C4, counterexample to the claim as stated: the claim says `stop()` sets
the task's stop flag, but the effective `stop` (the second definition in the
class body, which shadows the first) never touches `_stop_event`: on a task
with a live worker and the flag clear, the flag is still clear after
`stop()`. -/
theorem C4_counterexample :
    (StreamLogger.stop ⟨false, true, 0⟩).stop_event = false := by decide

/-- C4 (amended): the effective `stop()` never sets the stop flag; when the
worker thread is alive it closes the attached stream (one more
`stream.close()` invocation) and then joins with a bounded 0.1s timeout; when
the worker is not alive it does nothing at all; and a second `stop()` on an
already-stopped task (worker no longer alive) leaves the state unchanged and
raises no error. -/
theorem C4_stop_behavior (s : StreamLogger) :
    (StreamLogger.stop s).stop_event = s.stop_event ∧
    (s.thread_alive = true →
      (StreamLogger.stop s).stream_close_calls = s.stream_close_calls + 1) ∧
    (s.thread_alive = false → StreamLogger.stop s = s) ∧
    (s.thread_alive = false →
      StreamLogger.stop (StreamLogger.stop s) = StreamLogger.stop s) := by
  rcases hs : s.thread_alive <;> simp [StreamLogger.stop, hs]

/-- C4, witness: a `stop()` on a live-worker task closes its stream once
more, and a repeated `stop()` on a dead-worker task is the identity. -/
theorem C4_witness :
    (StreamLogger.stop ⟨false, true, 0⟩).stream_close_calls = 0 + 1 ∧
    StreamLogger.stop (StreamLogger.stop ⟨false, false, 1⟩) =
      StreamLogger.stop ⟨false, false, 1⟩ :=
  ⟨(C4_stop_behavior ⟨false, true, 0⟩).2.1 rfl,
   (C4_stop_behavior ⟨false, false, 1⟩).2.2.2 rfl⟩

/-- C5, counterexample to the claim as stated: on a task whose read raises
the closed-file `ValueError`, the error is indeed not propagated, but over
the task's whole lifetime the stream's `close` is invoked twice, not exactly
once, whenever `stop()` ran while the worker was still alive: once by
`stop()` itself and once more by the read loop's `finally` cleanup. -/
theorem C5_counterexample :
    (_log_stream false [ReadEvent.valueError "I/O operation on closed file"]).propagated =
      none ∧
    lifetimeCloseCalls true false [ReadEvent.valueError "I/O operation on closed file"] = 2 := by
  decide

/-- C5 (amended): a read raising a `ValueError` whose message contains
"I/O operation on closed file" makes the task terminate at once, forwarding
nothing further and propagating no error; the read loop's cleanup closes the
stream exactly once, and a `stop()` that found the worker alive closes it one
additional time (so the lifetime total is 1, or 2 when `stop()` ran while the
worker was alive). -/
theorem C5_closed_file_handling (msg : String) (rest : List ReadEvent)
    (hmsg : pyIn "I/O operation on closed file" msg = true) :
    (∀ tm : Bool, logStreamLoop tm (ReadEvent.valueError msg :: rest) = ([], none)) ∧
    (∀ (b tm : Bool) (reads : List ReadEvent),
      lifetimeCloseCalls b tm reads = if b then 2 else 1) := by
  constructor
  · intro tm
    simp [logStreamLoop, hmsg]
  · intro b tm reads
    rcases b <;> simp [lifetimeCloseCalls, _log_stream]

/-- C5, witness: the amended statement at the exact message raised by
CPython and an empty remainder of the stream. -/
theorem C5_witness :
    pyIn "I/O operation on closed file" "I/O operation on closed file" = true ∧
    logStreamLoop false
      (ReadEvent.valueError "I/O operation on closed file" :: []) = ([], none) ∧
    lifetimeCloseCalls true false [] = 2 ∧
    lifetimeCloseCalls false false [] = 1 :=
  ⟨by decide,
   (C5_closed_file_handling "I/O operation on closed file" [] (by decide)).1 false,
   (C5_closed_file_handling "I/O operation on closed file" [] (by decide)).2 true false [],
   by decide⟩

/-- C6, counterexample to the claim as stated: the claim says each forwarded
line has exactly its trailing line terminator removed and nothing else
changed, but the code forwards `line.strip()`: the line `"  a \n"` is
forwarded as `"a"`, with its leading and trailing spaces removed too. -/
theorem C6_counterexample :
    (logStreamLoop false [ReadEvent.line "  a \n", ReadEvent.line ""]).1 = ["a"] := by
  decide

/-- C6 (amended): the forwarding task forwards, in order, each non-empty line
passed through Python `str.strip()` (leading and trailing whitespace removed,
so in particular the trailing line terminator), and terminates at the first
empty read without forwarding anything further; a stream yielding
`["a\n", "b\n", ""]` forwards exactly `"a"` then `"b"`. -/
theorem C6_forwarding (s : String) (rest : List ReadEvent) (hs : ¬ s = "") :
    (logStreamLoop false [ReadEvent.line "a\n", ReadEvent.line "b\n", ReadEvent.line ""]).1 =
      ["a", "b"] ∧
    logStreamLoop false (ReadEvent.line "" :: rest) = ([], none) ∧
    logStreamLoop false (ReadEvent.line s :: rest) =
      (pyStrip s :: (logStreamLoop false rest).1, (logStreamLoop false rest).2) := by
  refine ⟨by decide, by simp [logStreamLoop], ?_⟩
  simp [logStreamLoop, hs]

/-- C6, witness: the amended statement at `s = "a\n"` with the rest of the
stream a single end-of-stream read. -/
theorem C6_witness :
    ¬ ("a\n" = "") ∧
    logStreamLoop false (ReadEvent.line "a\n" :: [ReadEvent.line ""]) =
      (pyStrip "a\n" :: (logStreamLoop false [ReadEvent.line ""]).1,
        (logStreamLoop false [ReadEvent.line ""]).2) :=
  ⟨by decide, (C6_forwarding "a\n" [ReadEvent.line ""] (by decide)).2.2⟩

/-- C7: a `launch_server` call on a config missing the `command` key or the
`args` key logs the missing-key diagnostic and raises `KeyError` for that
key; no spawn effect occurs, so `subprocess.Popen` is never invoked and no
process handle is created. -/
theorem C7_missing_key (workspace_path : String) (cfg : ServerConfig)
    (hmiss : cfg.command? = none ∨ cfg.args? = none) :
    (∃ key, (launch_server workspace_path cfg).2 = LaunchOutcome.keyError key ∧
      (key = "command" ∨ key = "args") ∧
      (launch_server workspace_path cfg).1 =
        [LaunchEffect.logError ("Missing required config key: '" ++ key ++ "'")]) ∧
    ∀ cmd, LaunchEffect.spawn cmd ∉ (launch_server workspace_path cfg).1 := by
  rcases hc : cfg.command? with _ | command_raw
  · refine ⟨⟨"command", ?_, Or.inl rfl, ?_⟩, ?_⟩
    · simp [launch_server, hc]
    · simp [launch_server, hc]
    · intro cmd
      simp [launch_server, hc]
  · rcases ha : cfg.args? with _ | args_raw
    · refine ⟨⟨"args", ?_, Or.inr rfl, ?_⟩, ?_⟩
      · simp [launch_server, hc, ha]
      · simp [launch_server, hc, ha]
      · intro cmd
        simp [launch_server, hc, ha]
    · rcases hmiss with hm | hm
      · rw [hc] at hm; cases hm
      · rw [ha] at hm; cases hm

/-- C7, witness: launching the test suite's `{"name": "incomplete"}` config
(no `command`, no `args`) raises `KeyError('command')` after logging it and
produces no spawn effect. -/
theorem C7_witness :
    ((⟨some "incomplete", none, none, none⟩ : ServerConfig).command? = none ∨
      (⟨some "incomplete", none, none, none⟩ : ServerConfig).args? = none) ∧
    ((∃ key, (launch_server "/w" ⟨some "incomplete", none, none, none⟩).2 =
        LaunchOutcome.keyError key ∧
      (key = "command" ∨ key = "args") ∧
      (launch_server "/w" ⟨some "incomplete", none, none, none⟩).1 =
        [LaunchEffect.logError ("Missing required config key: '" ++ key ++ "'")]) ∧
    ∀ cmd, LaunchEffect.spawn cmd ∉
      (launch_server "/w" ⟨some "incomplete", none, none, none⟩).1) :=
  ⟨Or.inl rfl, C7_missing_key "/w" ⟨some "incomplete", none, none, none⟩ (Or.inl rfl)⟩

/-- C8: `process_message` first appends the user message, then calls the LLM
with exactly the context string rendered from the history after that append,
then appends the reply as the assistant message, and returns that same
reply. -/
theorem C8_process_message (send_message : String → String) (h : ChatHistoryManager)
    (user_message : String) :
    (process_message send_message h user_message).2 =
      send_message (get_context_string (add_message h "user" user_message)) ∧
    (process_message send_message h user_message).1 =
      add_message (add_message h "user" user_message) "assistant"
        (send_message (get_context_string (add_message h "user" user_message))) :=
  ⟨rfl, rfl⟩

/-- C9: `get_context_string` is a pure read that renders the empty buffer as
the empty string, renders two or more messages with exactly one newline
between consecutive `"<role>: <content>"` entries (hence no leading or
trailing newline), and on `[{user, "Hello"}, {assistant, "Hi!"}]` yields the
26-character string `"user: Hello\nassistant: Hi!"`. -/
theorem C9_get_context_string :
    (∀ max_chars cur : Int, get_context_string ⟨max_chars, [], cur⟩ = "") ∧
    (∀ (max_chars cur : Int) (a b : Message) (t : List Message),
      get_context_string ⟨max_chars, a :: b :: t, cur⟩ =
        a.role ++ ": " ++ a.content ++ "\n" ++ get_context_string ⟨max_chars, b :: t, cur⟩) ∧
    get_context_string ⟨2000, [⟨"user", "Hello"⟩, ⟨"assistant", "Hi!"⟩], 14⟩ =
      "user: Hello\nassistant: Hi!" ∧
    ("user: Hello\nassistant: Hi!").length = 26 := by
  refine ⟨fun max_chars cur => rfl, fun max_chars cur a b t => ?_, by decide, by decide⟩
  show String.intercalate "\n"
      ((a.role ++ ": " ++ a.content) :: (b.role ++ ": " ++ b.content) ::
        (t.map fun msg => msg.role ++ ": " ++ msg.content)) = _
  rw [intercalate_cons_cons]
  rfl

/-- C10: the interactive loop strips every input line before interpreting it:
a line is ignored exactly when it strips to the empty string, an exit keyword
in any letter case surrounded by whitespace still exits (both in general and
on the concrete `"  EXIT  "`), and any message handed to `process_message`
carries no leading and no trailing whitespace. -/
theorem C10_input_normalization :
    (∀ raw : String, interpret_input raw = LoopAction.ignore ↔ pyStrip raw = "") ∧
    (∀ raw : String,
      (pyLower (pyStrip raw) = "exit" ∨ pyLower (pyStrip raw) = "quit") →
      interpret_input raw = LoopAction.exit) ∧
    interpret_input "  EXIT  " = LoopAction.exit ∧
    (∀ raw msg : String, interpret_input raw = LoopAction.process msg →
      msg.data.head?.all (fun c => !isPySpace c) = true ∧
      msg.data.getLast?.all (fun c => !isPySpace c) = true) := by
  refine ⟨fun raw => ?_, fun raw h1 => by simp [interpret_input, h1], by decide,
    fun raw msg hp => ?_⟩
  · by_cases h1 : pyLower (pyStrip raw) = "exit" ∨ pyLower (pyStrip raw) = "quit"
    · simp [interpret_input, h1]
      intro he
      rw [he] at h1
      exact absurd h1 (by decide)
    · by_cases h2 : pyStrip raw = ""
      · have hpl : pyLower "" = "" := rfl
        simp [interpret_input, h2, hpl]
      · simp [interpret_input, h1, h2]
  · by_cases h1 : pyLower (pyStrip raw) = "exit" ∨ pyLower (pyStrip raw) = "quit"
    · simp [interpret_input, h1] at hp
    · by_cases h2 : pyStrip raw = ""
      · have hpl : pyLower "" = "" := rfl
        simp [interpret_input, h2, hpl] at hp
      · simp [interpret_input, h1, h2] at hp
        rw [← hp]
        exact pyStrip_no_edge_space raw

/-- C10, witness: `"  quit"` exits via the general clause, and the processed
message for `" hi "` is the stripped `"hi"`, whose first and last characters
are not whitespace. -/
theorem C10_witness :
    (pyLower (pyStrip "  quit") = "exit" ∨ pyLower (pyStrip "  quit") = "quit") ∧
    interpret_input "  quit" = LoopAction.exit ∧
    interpret_input " hi " = LoopAction.process "hi" ∧
    ("hi".data.head?.all (fun c => !isPySpace c) = true ∧
      "hi".data.getLast?.all (fun c => !isPySpace c) = true) :=
  ⟨by decide, C10_input_normalization.2.1 "  quit" (by decide),
   by decide, C10_input_normalization.2.2.2 " hi " "hi" (by decide)⟩
